import Mathlib

/-!
Shallow embedding of `src/lib.rs` of the time-tracker-core repository
(`TimeTracer` and its operations), together with proofs of the spec's claims.

Modelling conventions:
* `SystemTime` instants are modelled as `Nat` values counting whole seconds
  since the Unix epoch; `Duration` results are `Nat` second counts.  Operations
  that call `SystemTime::now()` in Rust take the current instant as an explicit
  `now : Nat` argument.
* The two files the tracker touches are modelled by `FileSys`: `none` means the
  file is absent, `some s` means it exists with content `s`.
* A Rust panic (an `expect` firing) is modelled by an operation returning
  `none` in an outer `Option`: the process aborts and produces no result.
* Fallible I/O is driven by explicit boolean oracles (`cacheWriteOk`,
  `writeOk`, `removeOk`): `true` means the underlying syscall succeeds.
* `current_id` is a `u32` in the source; it is modelled as a `Nat` kept in
  the `u32` range.  `self.current_id += 1` is checked arithmetic: at
  `u32::MAX` the increment aborts (the crate's test build; a release build
  would wrap instead, and either behavior breaks id allocation at the
  boundary), modelled as the outer `none`.  The `parse::<u32>()` bound at
  construction is the same `2 ^ 32` check.
* `HashMap<u32, Task>` is modelled as an association list whose `insert`
  replaces an existing binding, so its length equals the map's size.
-/

namespace TimeTracerModel

/-- Model of the `Task` struct: one timed unit of work. -/
structure Task where
  id : Nat
  name : String
  start_time : Nat
  end_time : Nat
  deriving DecidableEq

/-- Model of the `TimeTracer` struct: the tracker's in-memory state. -/
structure TimeTracer where
  current_id : Nat
  tasks_map : List (Nat × Task)
  running_tasks : List Nat
  save_file_path : String
  cache_file_path : String
  deriving DecidableEq

/-- Model of the two files the tracker touches: `none` = absent. -/
structure FileSys where
  saveFile : Option String
  cacheFile : Option String
  deriving DecidableEq

/-- Lookup in the association list modelling `HashMap::get`. -/
def mapGet (m : List (Nat × Task)) (k : Nat) : Option Task :=
  match m with
  | [] => none
  | (k', v) :: rest => if k' = k then some v else mapGet rest k

/-- Insertion modelling `HashMap::insert`: replaces an existing binding. -/
def mapInsert (m : List (Nat × Task)) (k : Nat) (v : Task) : List (Nat × Task) :=
  match m with
  | [] => [(k, v)]
  | (k', v') :: rest =>
    if k' = k then (k, v) :: rest else (k', v') :: mapInsert rest k v

/-- Value of a digit string, mirroring the accumulation Rust's `u32::from_str`
performs (`n * 10 + digit`); `none` when the list is empty or holds a
non-digit, as Rust errors there. -/
def digitsVal (cs : List Char) : Option Nat :=
  if cs ≠ [] ∧ cs.all (fun c => c.isDigit) then
    some (cs.foldl (fun n c => n * 10 + (c.toNat - '0'.toNat)) 0)
  else
    none

/-- Model of Rust `str::trim` at the character level: drop whitespace from
both ends.  (Rust trims Unicode whitespace; the ASCII whitespace test
suffices for cache files, which only ever hold digits and a newline.) -/
def trim_chars (s : String) : String :=
  String.mk
    (((s.data.dropWhile Char.isWhitespace).reverse.dropWhile
      Char.isWhitespace).reverse)

/-- Model of Rust `str::parse::<u32>()`: an optional leading `+`, then one or
more decimal digits, rejecting values outside the `u32` range (Rust signals
overflow during the checked accumulation; for base 10 that is exactly the
final-value bound). -/
def parse_u32 (s : String) : Option Nat :=
  let cs := if s.data.head? = some '+' then s.data.tail else s.data
  match digitsVal cs with
  | none => none
  | some n => if n < 2 ^ 32 then some n else none

/-- Model of `TimeTracer::new_with_file_path`.  `cacheContent` is the content
of the file at `cache_file_path` (`none` = file absent).  The source reads the
cache file once: absent means `current_id = 0`; present means its trimmed
contents are parsed as a `u32`, with `.expect` aborting on a parse failure
(modelled by the outer `none`). -/
def new_with_file_path (save_file_path cache_file_path : String)
    (cacheContent : Option String) : Option TimeTracer :=
  match cacheContent with
  | none => some ⟨0, [], [], save_file_path, cache_file_path⟩
  | some cache_content =>
    match parse_u32 (trim_chars cache_content) with
    | none => none
    | some n => some ⟨n, [], [], save_file_path, cache_file_path⟩

/-- Model of `TimeTracer::delete_save_files`.  The `Bool` in the result is
`true` for `Ok(())` and `false` for a propagated `remove_file` error
(`removeOk = false`); the source returns early, without touching `current_id`,
when the save file does not exist, and it never touches the cache file. -/
def delete_save_files (t : TimeTracer) (fs : FileSys) (removeOk : Bool) :
    Bool × TimeTracer × FileSys :=
  match fs.saveFile with
  | none => (true, t, fs)
  | some _ =>
    if removeOk then
      (true, { t with current_id := 0 }, { fs with saveFile := none })
    else
      (false, t, fs)

/-- Model of `TimeTracer::save_cache_to_file`.  The source opens the cache
file with `write(true).create(true)` and NO `truncate`, then writes the
counter and a newline from position 0: any previous content longer than the
written text keeps its stale tail. -/
def save_cache_to_file (id_to_save : Nat) (prior : Option String) : String :=
  let written := Nat.repr id_to_save ++ "\n"
  match prior with
  | none => written
  | some old => written ++ String.mk (old.data.drop written.data.length)

/-- Model of `TimeTracer::new_task`.  Stores a task with both timestamps set
to `now`, increments the counter, and persists the incremented counter to the
cache file.  The `self.current_id += 1` is checked `u32` arithmetic and
aborts when the counter sits at `u32::MAX` (outer `none`; a release build
would wrap to 0 instead — either way no call returns a counter past the
bound); a cache-write failure hits `.expect` and aborts likewise. -/
def new_task (t : TimeTracer) (name : String) (now : Nat) (fs : FileSys)
    (cacheWriteOk : Bool) : Option (Nat × TimeTracer × FileSys) :=
  let task : Task := ⟨t.current_id, name, now, now⟩
  let id := t.current_id
  if t.current_id + 1 < 2 ^ 32 then
    let t' : TimeTracer :=
      { t with
        tasks_map := mapInsert t.tasks_map t.current_id task
        current_id := t.current_id + 1 }
    if cacheWriteOk then
      some (id, t',
        { fs with cacheFile := some (save_cache_to_file t'.current_id fs.cacheFile) })
    else
      none
  else
    none

/-- Model of `TimeTracer::get_task_number`: the registry's size. -/
def get_task_number (t : TimeTracer) : Nat :=
  t.tasks_map.length

/-- Model of `TimeTracer::start_task`.  `Vec::contains` is modelled as list
membership (decidable, and equivalent for `u32`). -/
def start_task (t : TimeTracer) (id : Nat) (now : Nat) : Bool × TimeTracer :=
  if id ∈ t.running_tasks then
    (false, t)
  else
    match mapGet t.tasks_map id with
    | none => (false, t)
    | some task =>
      (true,
        { t with
          tasks_map := mapInsert t.tasks_map id { task with start_time := now }
          running_tasks := t.running_tasks ++ [id] })

/-- Model of the line `writeln!` appends in `save_task_to_file`:
`id,name,start_secs,end_secs` and a newline (the `duration_since(UNIX_EPOCH)`
calls turn the two instants into their second counts, which is what the `Nat`
instants already are). -/
def task_line (task : Task) : String :=
  Nat.repr task.id ++ "," ++ task.name ++ "," ++ Nat.repr task.start_time ++ ","
    ++ Nat.repr task.end_time ++ "\n"

/-- Model of `TimeTracer::save_task_to_file`: the file is opened with
`append(true).create(true)`, so the line is appended to the previous content
(empty when the file was absent). -/
def save_task_to_file (task : Task) (prior : Option String) : String :=
  (prior.getD "") ++ task_line task

/-- Model of `TimeTracer::end_task`.  Mirrors the source's order: membership
check, lookup, set `end_time`, drop the id from the running list, compute the
duration (`.expect "Time went backwards"` aborts when `now` is earlier than
the stored `start_time`: outer `none`), then best-effort append to the save
file, reporting but ignoring a failure (`writeOk = false`). -/
def end_task (t : TimeTracer) (id : Nat) (now : Nat) (fs : FileSys)
    (writeOk : Bool) : Option (Option Nat × TimeTracer × FileSys) :=
  if id ∈ t.running_tasks then
    match mapGet t.tasks_map id with
    | none => some (none, t, fs)
    | some task =>
      let task' : Task := { task with end_time := now }
      let t' : TimeTracer :=
        { t with
          tasks_map := mapInsert t.tasks_map id task'
          running_tasks := t.running_tasks.filter (fun x => x != id) }
      if now < task.start_time then
        none
      else
        let fs' :=
          if writeOk then
            { fs with saveFile := some (save_task_to_file task' fs.saveFile) }
          else
            fs
        some (some (now - task.start_time), t', fs')
  else
    some (none, t, fs)

/-- One externally visible operation on a tracker, with its clock reading and
I/O oracles. -/
inductive Op where
  | newTask (name : String) (now : Nat) (cacheWriteOk : Bool)
  | startTask (id : Nat) (now : Nat)
  | endTask (id : Nat) (now : Nat) (writeOk : Bool)
  | deleteSaveFiles (removeOk : Bool)

/-- Effect of one operation on the tracker and the file system, discarding the
value returned to the caller; `none` = the process aborted in a panic. -/
def step (s : TimeTracer × FileSys) : Op → Option (TimeTracer × FileSys)
  | Op.newTask name now cacheWriteOk =>
    (new_task s.1 name now s.2 cacheWriteOk).map (fun r => r.2)
  | Op.startTask id now => some ((start_task s.1 id now).2, s.2)
  | Op.endTask id now writeOk =>
    (end_task s.1 id now s.2 writeOk).map (fun r => r.2)
  | Op.deleteSaveFiles removeOk => some (delete_save_files s.1 s.2 removeOk).2

/-- Runs a sequence of operations, stopping at a panic. -/
def run (s : TimeTracer × FileSys) : List Op → Option (TimeTracer × FileSys)
  | [] => some s
  | op :: ops =>
    match step s op with
    | none => none
    | some s' => run s' ops

/-- Runs a list of `new_task` calls (name and clock reading for each), with
the cache write always succeeding, collecting the returned ids. -/
def newTasks (t : TimeTracer) (fs : FileSys) :
    List (String × Nat) → Option (List Nat × TimeTracer × FileSys)
  | [] => some ([], t, fs)
  | (name, now) :: rest =>
    match new_task t name now fs true with
    | none => none
    | some (id, t', fs') =>
      match newTasks t' fs' rest with
      | none => none
      | some (ids, t'', fs'') => some (id :: ids, t'', fs'')

/-- Splits a character list at every newline; the result always has one more
part than there are newlines (a trailing newline yields a trailing `[]`). -/
def splitNl : List Char → List (List Char)
  | [] => [[]]
  | c :: cs =>
    let r := splitNl cs
    if c = '\n' then
      [] :: r
    else
      match r with
      | [] => [[c]]
      | l :: ls => (c :: l) :: ls

/-- Drops one trailing carriage return, as Rust's `str::lines` does per line. -/
def rstripCr (l : List Char) : List Char :=
  if l.getLast? = some '\x0d' then l.dropLast else l

/-- Model of Rust `str::lines`, used by the repository's tests to read the
save file: split at `'\n'`, drop a final empty fragment, strip one trailing
`'\r'` from each line. -/
def fileLines (s : String) : List String :=
  let parts := splitNl s.data
  let parts := if parts.getLast? = some [] then parts.dropLast else parts
  parts.map (fun l => String.mk (rstripCr l))

/-- Invariant of reachable tracker states: the running list has no duplicates
and every running id is a key of the registry. -/
def Inv (t : TimeTracer) : Prop :=
  t.running_tasks.Nodup ∧
    ∀ id ∈ t.running_tasks, (mapGet t.tasks_map id).isSome = true

/-- Lookup after a replace-insert: the inserted key maps to the new value,
everything else is unchanged. -/
theorem mapGet_mapInsert (m : List (Nat × Task)) (k k' : Nat) (v : Task) :
    mapGet (mapInsert m k v) k' = if k = k' then some v else mapGet m k' := by
  induction m with
  | nil => simp [mapGet, mapInsert]
  | cons p rest ih =>
    obtain ⟨k0, v0⟩ := p
    by_cases h1 : k0 = k
    · subst h1
      by_cases h2 : k0 = k' <;> simp [mapInsert, mapGet, h2]
    · by_cases h2 : k0 = k' <;> by_cases h3 : k = k' <;>
        simp_all [mapInsert, mapGet]

/-- Inserting a fresh key grows the association list by one entry. -/
theorem length_mapInsert_fresh (m : List (Nat × Task)) (k : Nat) (v : Task)
    (h : mapGet m k = none) : (mapInsert m k v).length = m.length + 1 := by
  induction m with
  | nil => simp [mapInsert]
  | cons p rest ih =>
    obtain ⟨k0, v0⟩ := p
    by_cases h1 : k0 = k
    · simp [mapGet, h1] at h
    · simp only [mapGet, h1, if_false] at h
      simp [mapInsert, h1, ih h]

/-- Dropping an id via the source's `retain` predicate removes it. -/
theorem not_mem_filter_bne (l : List Nat) (id : Nat) :
    id ∉ l.filter (fun x => x != id) := by
  intro h
  have := (List.mem_filter.mp h).2
  simp at this

/-- A `new_task` call preserves the running-task invariant. -/
theorem inv_new_task (t : TimeTracer) (name : String) (now : Nat) (fs : FileSys)
    (ok : Bool) (hInv : Inv t) (r : Nat × TimeTracer × FileSys)
    (hr : new_task t name now fs ok = some r) : Inv r.2.1 := by
  cases ok with
  | false => simp [new_task] at hr
  | true =>
    simp only [new_task, if_true] at hr
    obtain ⟨hInv1, hInv2⟩ := hInv
    split at hr
    · cases hr
      refine ⟨hInv1, ?_⟩
      intro id hid
      simp only [mapGet_mapInsert]
      split
      · rfl
      · exact hInv2 id hid
    · cases hr

/-- A `start_task` call preserves the running-task invariant. -/
theorem inv_start_task (t : TimeTracer) (id now : Nat) (hInv : Inv t) :
    Inv (start_task t id now).2 := by
  obtain ⟨hInv1, hInv2⟩ := hInv
  by_cases hmem : id ∈ t.running_tasks
  · simpa [start_task, hmem] using ⟨hInv1, hInv2⟩
  · cases hget : mapGet t.tasks_map id with
    | none => simpa [start_task, hmem, hget] using ⟨hInv1, hInv2⟩
    | some task =>
      simp only [start_task, hmem, if_false, hget]
      refine ⟨?_, ?_⟩
      · simpa [List.nodup_append, hmem] using hInv1
      · intro j hj
        simp only [mapGet_mapInsert]
        rcases List.mem_append.mp hj with hj | hj
        · split
          · rfl
          · exact hInv2 j hj
        · simp only [List.mem_singleton] at hj
          subst hj
          simp

/-- An `end_task` call that returns preserves the running-task invariant. -/
theorem inv_end_task (t : TimeTracer) (id now : Nat) (fs : FileSys) (wOk : Bool)
    (hInv : Inv t) (r : Option Nat × TimeTracer × FileSys)
    (hr : end_task t id now fs wOk = some r) : Inv r.2.1 := by
  obtain ⟨hInv1, hInv2⟩ := hInv
  by_cases hmem : id ∈ t.running_tasks
  · cases hget : mapGet t.tasks_map id with
    | none =>
      simp only [end_task, hmem, if_true, hget] at hr
      cases hr
      exact ⟨hInv1, hInv2⟩
    | some task =>
      simp only [end_task, hmem, if_true, hget] at hr
      by_cases hlt : now < task.start_time
      · simp [hlt] at hr
      · simp only [hlt, if_false, Option.some.injEq] at hr
        cases hr
        refine ⟨hInv1.filter _, ?_⟩
        intro j hj
        simp only [mapGet_mapInsert]
        split
        · rfl
        · exact hInv2 j (List.mem_of_mem_filter hj)
  · simp only [end_task, hmem, if_false] at hr
    cases hr
    exact ⟨hInv1, hInv2⟩

/-- A `delete_save_files` call preserves the running-task invariant. -/
theorem inv_delete_save_files (t : TimeTracer) (fs : FileSys) (removeOk : Bool)
    (hInv : Inv t) : Inv (delete_save_files t fs removeOk).2.1 := by
  obtain ⟨hInv1, hInv2⟩ := hInv
  cases hs : fs.saveFile with
  | none => simpa [delete_save_files, hs] using ⟨hInv1, hInv2⟩
  | some s =>
    cases removeOk with
    | false => simpa [delete_save_files, hs] using ⟨hInv1, hInv2⟩
    | true => simpa [delete_save_files, hs] using ⟨hInv1, hInv2⟩

/-- One `step` preserves the running-task invariant. -/
theorem inv_step (s : TimeTracer × FileSys) (op : Op) (s' : TimeTracer × FileSys)
    (hInv : Inv s.1) (hstep : step s op = some s') : Inv s'.1 := by
  cases op with
  | newTask name now ok =>
    simp only [step, Option.map_eq_some'] at hstep
    obtain ⟨r, hr, hr2⟩ := hstep
    subst hr2
    exact inv_new_task s.1 name now s.2 ok hInv r hr
  | startTask id now =>
    simp only [step, Option.some.injEq] at hstep
    subst hstep
    exact inv_start_task s.1 id now hInv
  | endTask id now wOk =>
    simp only [step, Option.map_eq_some'] at hstep
    obtain ⟨r, hr, hr2⟩ := hstep
    subst hr2
    exact inv_end_task s.1 id now s.2 wOk hInv r hr
  | deleteSaveFiles removeOk =>
    simp only [step, Option.some.injEq] at hstep
    subst hstep
    exact inv_delete_save_files s.1 s.2 removeOk hInv

/-- Running any operation sequence preserves the running-task invariant. -/
theorem inv_run (ops : List Op) (s s' : TimeTracer × FileSys)
    (hInv : Inv s.1) (hrun : run s ops = some s') : Inv s'.1 := by
  induction ops generalizing s with
  | nil =>
    simp only [run, Option.some.injEq] at hrun
    subst hrun
    exact hInv
  | cons op rest ih =>
    simp only [run] at hrun
    cases hstep : step s op with
    | none => simp [hstep] at hrun
    | some s1 =>
      rw [hstep] at hrun
      exact ih s1 (inv_step s op s1 hInv hstep) hrun

/-- A freshly constructed tracker satisfies the running-task invariant. -/
theorem inv_new_with_file_path (sp cp : String) (cc : Option String)
    (t0 : TimeTracer) (h : new_with_file_path sp cp cc = some t0) : Inv t0 := by
  cases cc with
  | none =>
    simp only [new_with_file_path, Option.some.injEq] at h
    subst h
    exact ⟨List.nodup_nil, by simp⟩
  | some s =>
    simp only [new_with_file_path] at h
    cases hp : parse_u32 (trim_chars s) with
    | none => simp [hp] at h
    | some n =>
      rw [hp] at h
      cases h
      exact ⟨List.nodup_nil, by simp⟩

/-- Ending a task that is not in the running set: the source returns `None`
and changes nothing. -/
theorem end_task_of_not_running (t : TimeTracer) (id now : Nat) (fs : FileSys)
    (wOk : Bool) (h : id ∉ t.running_tasks) :
    end_task t id now fs wOk = some (none, t, fs) := by
  simp [end_task, h]

/-- Ending a running, registered task with a monotonic clock: explicit
post-state and returned duration. -/
theorem end_task_of_running (t : TimeTracer) (id now : Nat) (fs : FileSys)
    (wOk : Bool) (task : Task) (hmem : id ∈ t.running_tasks)
    (hget : mapGet t.tasks_map id = some task)
    (hmono : task.start_time ≤ now) :
    end_task t id now fs wOk =
      some (some (now - task.start_time),
        { t with
          tasks_map := mapInsert t.tasks_map id { task with end_time := now }
          running_tasks := t.running_tasks.filter (fun x => x != id) },
        if wOk then
          { fs with
            saveFile :=
              some (save_task_to_file { task with end_time := now } fs.saveFile) }
        else fs) := by
  simp [end_task, hmem, hget, Nat.not_lt.mpr hmono]

/-- Ending a running, registered task after the clock moved backward hits the
`expect "Time went backwards"` panic. -/
theorem end_task_clock_backward (t : TimeTracer) (id now : Nat) (fs : FileSys)
    (wOk : Bool) (task : Task) (hmem : id ∈ t.running_tasks)
    (hget : mapGet t.tasks_map id = some task)
    (hlt : now < task.start_time) :
    end_task t id now fs wOk = none := by
  simp [end_task, hmem, hget, hlt]

/-- Digits produced by the numeral printer are never a newline or a carriage
return. -/
theorem digitChar_ne_ctrl (n : Nat) :
    Nat.digitChar n ≠ '\n' ∧ Nat.digitChar n ≠ '\x0d' := by
  by_cases h : n < 16
  · have hlt : ∀ m : Nat, m < 16 →
        Nat.digitChar m ≠ '\n' ∧ Nat.digitChar m ≠ '\x0d' := by decide
    exact hlt n h
  · have h16 : Nat.digitChar n = '*' := by
      unfold Nat.digitChar
      repeat rw [if_neg (by omega)]
    rw [h16]
    exact ⟨by decide, by decide⟩

/-- Characters accumulated by `Nat.toDigitsCore` are digits of the base or
come from the accumulator, so none of them is a newline or carriage return. -/
theorem toDigitsCore_ne_ctrl (fuel : Nat) :
    ∀ (n : Nat) (ds : List Char),
      (∀ c ∈ ds, c ≠ '\n' ∧ c ≠ '\x0d') →
      ∀ c ∈ Nat.toDigitsCore 10 fuel n ds, c ≠ '\n' ∧ c ≠ '\x0d' := by
  induction fuel with
  | zero =>
    intro n ds h c hc
    exact h c hc
  | succ f ih =>
    intro n ds h c hc
    simp only [Nat.toDigitsCore] at hc
    have hcons : ∀ c ∈ Nat.digitChar (n % 10) :: ds, c ≠ '\n' ∧ c ≠ '\x0d' := by
      intro c hc
      rcases List.mem_cons.mp hc with hc | hc
      · subst hc
        exact digitChar_ne_ctrl (n % 10)
      · exact h c hc
    by_cases hz : n / 10 = 0
    · rw [if_pos hz] at hc
      exact hcons c hc
    · rw [if_neg hz] at hc
      exact ih (n / 10) (Nat.digitChar (n % 10) :: ds) hcons c hc

/-- The decimal representation of a natural number contains neither a newline
nor a carriage return. -/
theorem repr_ne_ctrl (n : Nat) :
    ∀ c ∈ (Nat.repr n).data, c ≠ '\n' ∧ c ≠ '\x0d' := by
  intro c hc
  have : (Nat.repr n).data = Nat.toDigitsCore 10 (n + 1) n [] := rfl
  rw [this] at hc
  exact toDigitsCore_ne_ctrl (n + 1) n [] (by simp) c hc

/-- Splitting a newline-free chunk followed by a newline peels off exactly
that chunk. -/
theorem splitNl_append (l1 : List Char) (rest : List Char)
    (h : '\n' ∉ l1) : splitNl (l1 ++ '\n' :: rest) = l1 :: splitNl rest := by
  induction l1 with
  | nil => simp [splitNl]
  | cons c cs ih =>
    have hc : c ≠ '\n' := fun hcn => h (hcn ▸ List.mem_cons_self c cs)
    have hcs : '\n' ∉ cs := fun hmem => h (List.mem_cons_of_mem c hmem)
    simp only [List.cons_append, splitNl, List.append_eq, if_neg hc]
    rw [ih hcs]

/-- A list whose members are not carriage returns is unchanged by the
per-line carriage-return strip. -/
theorem rstripCr_of_no_cr (l : List Char) (h : ∀ c ∈ l, c ≠ '\x0d') :
    rstripCr l = l := by
  unfold rstripCr
  cases hlast : l.getLast? with
  | none => simp
  | some c =>
    have : c ≠ '\x0d' := h c (List.mem_of_getLast?_eq_some hlast)
    simp [this]

/-- Reading a file made of two newline-terminated, control-character-free
lines gives exactly those two lines. -/
theorem fileLines_two (l1 l2 : String)
    (h1 : ∀ c ∈ l1.data, c ≠ '\n' ∧ c ≠ '\x0d')
    (h2 : ∀ c ∈ l2.data, c ≠ '\n' ∧ c ≠ '\x0d') :
    fileLines (l1 ++ "\n" ++ l2 ++ "\n") = [l1, l2] := by
  obtain ⟨d1⟩ := l1
  obtain ⟨d2⟩ := l2
  have hA : ∀ c ∈ d1, c ≠ '\n' ∧ c ≠ '\x0d' := h1
  have hB : ∀ c ∈ d2, c ≠ '\n' ∧ c ≠ '\x0d' := h2
  have hdata : ((⟨d1⟩ : String) ++ "\n" ++ ⟨d2⟩ ++ "\n").data
      = d1 ++ '\n' :: (d2 ++ '\n' :: []) := by
    simp [String.data_append]
  have hs1 : splitNl (d1 ++ '\n' :: (d2 ++ '\n' :: []))
      = d1 :: splitNl (d2 ++ '\n' :: []) :=
    splitNl_append d1 _ (fun hmem => (hA '\n' hmem).1 rfl)
  have hs2 : splitNl (d2 ++ '\n' :: ([] : List Char))
      = d2 :: splitNl [] :=
    splitNl_append d2 _ (fun hmem => (hB '\n' hmem).1 rfl)
  have hlast : ([d1, d2, ([] : List Char)] : List (List Char)).getLast?
      = some [] := rfl
  have hdrop : ([d1, d2, ([] : List Char)] : List (List Char)).dropLast
      = [d1, d2] := rfl
  simp only [fileLines]
  rw [hdata, hs1, hs2]
  simp only [splitNl]
  rw [if_pos hlast, hdrop]
  simp only [List.map]
  rw [rstripCr_of_no_cr d1 (fun c hc => (hA c hc).2),
    rstripCr_of_no_cr d2 (fun c hc => (hB c hc).2)]

/-- Shape of every successfully constructed tracker: empty registry, empty
running set, the two paths stored, and the counter determined by the cache
content. -/
theorem new_with_file_path_shape (sp cp : String) (cc : Option String)
    (t0 : TimeTracer) (h : new_with_file_path sp cp cc = some t0) :
    t0.tasks_map = [] ∧ t0.running_tasks = [] ∧
      t0.save_file_path = sp ∧ t0.cache_file_path = cp ∧
      ((cc = none ∧ t0.current_id = 0) ∨
        (∃ s, cc = some s ∧ parse_u32 (trim_chars s) = some t0.current_id)) := by
  cases cc with
  | none =>
    simp only [new_with_file_path, Option.some.injEq] at h
    subst h
    exact ⟨rfl, rfl, rfl, rfl, Or.inl ⟨rfl, rfl⟩⟩
  | some s =>
    simp only [new_with_file_path] at h
    cases hp : parse_u32 (trim_chars s) with
    | none => simp [hp] at h
    | some n =>
      rw [hp] at h
      cases h
      exact ⟨rfl, rfl, rfl, rfl, Or.inr ⟨s, rfl, hp⟩⟩

/-- Running a batch of `new_task` calls from a state whose registry keys all
lie below the counter and whose counter stays within the `u32` range for the
whole batch: the calls all succeed, hand out the consecutive ids from the
current counter, and grow the registry by one entry each.  (Without the
range bound the checked increment aborts at `u32::MAX`.) -/
theorem newTasks_spec (inputs : List (String × Nat)) :
    ∀ (t : TimeTracer) (fs : FileSys),
      (∀ k, (mapGet t.tasks_map k).isSome = true → k < t.current_id) →
      t.current_id + inputs.length < 2 ^ 32 →
      ∃ t' fs',
        newTasks t fs inputs
            = some (List.range' t.current_id inputs.length, t', fs')
          ∧ t'.current_id = t.current_id + inputs.length
          ∧ t'.tasks_map.length = t.tasks_map.length + inputs.length := by
  induction inputs with
  | nil =>
    intro t fs _ _
    exact ⟨t, fs, rfl, by simp, by simp⟩
  | cons p rest ih =>
    intro t fs hkeys hbound
    obtain ⟨name, now⟩ := p
    have hstep : t.current_id + 1 < 2 ^ 32 := by
      simp only [List.length_cons] at hbound
      omega
    have hfresh : mapGet t.tasks_map t.current_id = none := by
      cases hg : mapGet t.tasks_map t.current_id with
      | none => rfl
      | some v =>
        have := hkeys t.current_id (by simp [hg])
        omega
    have hkeys' : ∀ k,
        (mapGet (mapInsert t.tasks_map t.current_id
            ⟨t.current_id, name, now, now⟩) k).isSome = true →
        k < t.current_id + 1 := by
      intro k hk
      rw [mapGet_mapInsert] at hk
      by_cases he : t.current_id = k
      · omega
      · rw [if_neg he] at hk
        have := hkeys k hk
        omega
    obtain ⟨t', fs', hrun, hid, hlen⟩ := ih
      { t with
        tasks_map := mapInsert t.tasks_map t.current_id
          ⟨t.current_id, name, now, now⟩
        current_id := t.current_id + 1 }
      { fs with cacheFile := some (save_cache_to_file (t.current_id + 1) fs.cacheFile) }
      hkeys'
      (show t.current_id + 1 + rest.length < 2 ^ 32 by
        simp only [List.length_cons] at hbound
        omega)
    dsimp only at hrun hid hlen
    refine ⟨t', fs', ?_, ?_, ?_⟩
    · simp only [newTasks, new_task, hstep, if_true, List.length_cons]
      rw [hrun, List.range'_succ]
    · simp only [List.length_cons]
      omega
    · simp only [List.length_cons]
      rw [hlen, length_mapInsert_fresh t.tasks_map t.current_id _ hfresh]
      omega

/-- Ending a task that is in the running set but (impossibly, for reachable
states) missing from the registry: the source returns `None`. -/
theorem end_task_of_missing (t : TimeTracer) (id now : Nat) (fs : FileSys)
    (wOk : Bool) (hmem : id ∈ t.running_tasks)
    (hget : mapGet t.tasks_map id = none) :
    end_task t id now fs wOk = some (none, t, fs) := by
  simp [end_task, hmem, hget]

/-- Example tracker as constructed with no cache file present. -/
def exT0 : TimeTracer := ⟨0, [], [], "save", "cache"⟩

/-- Example file system with both files absent. -/
def exFs0 : FileSys := ⟨none, none⟩

/-- Example operation sequence: create one task, then start it. -/
def exOpsRun : List Op := [Op.newTask "a" 1 true, Op.startTask 0 2]

/-- Tracker state after `exOpsRun` from `exT0`. -/
def exT1 : TimeTracer := ⟨1, [(0, ⟨0, "a", 2, 1⟩)], [0], "save", "cache"⟩

/-- File-system state after `exOpsRun` from `exFs0`. -/
def exFs1 : FileSys := ⟨none, some "1\n"⟩

/-- The example run computes to the example states. -/
theorem exRun_eq : run (exT0, exFs0) exOpsRun = some (exT1, exFs1) := rfl

/-- Example tracker holding one created, never started task. -/
def exStT : TimeTracer := ⟨1, [(0, ⟨0, "a", 1, 1⟩)], [], "save", "cache"⟩

/-- C2: `start_task(id)` returns `false` exactly when `id` is already running
or absent from the registry; on success it resets the task's `start_time` to
`now`, appends `id` to the running list, and returns `true`; on failure the
state is unchanged; and in all cases the file system is untouched (the `step`
equation returns `fs` itself). -/
theorem start_task_spec (t : TimeTracer) (id now : Nat) :
    ((start_task t id now).1 = false ↔
      id ∈ t.running_tasks ∨ mapGet t.tasks_map id = none)
    ∧ (∀ task, mapGet t.tasks_map id = some task → id ∉ t.running_tasks →
        start_task t id now = (true,
          { t with
            tasks_map := mapInsert t.tasks_map id { task with start_time := now }
            running_tasks := t.running_tasks ++ [id] }))
    ∧ ((start_task t id now).1 = false → (start_task t id now).2 = t)
    ∧ (∀ fs : FileSys, step (t, fs) (Op.startTask id now)
        = some ((start_task t id now).2, fs)) := by
  by_cases hmem : id ∈ t.running_tasks
  · have he : start_task t id now = (false, t) := by simp [start_task, hmem]
    refine ⟨?_, ?_, ?_, ?_⟩
    · rw [he]
      simp [hmem]
    · intro task _ hn
      exact absurd hmem hn
    · intro _
      rw [he]
    · intro fs
      rfl
  · cases hget : mapGet t.tasks_map id with
    | none =>
      have he : start_task t id now = (false, t) := by
        simp [start_task, hmem, hget]
      refine ⟨?_, ?_, ?_, ?_⟩
      · rw [he]
        simp [hmem, hget]
      · intro task hget' _
        cases hget'
      · intro _
        rw [he]
      · intro fs
        rfl
    | some task =>
      have he : start_task t id now = (true,
          { t with
            tasks_map := mapInsert t.tasks_map id { task with start_time := now }
            running_tasks := t.running_tasks ++ [id] }) := by
        simp [start_task, hmem, hget]
      refine ⟨?_, ?_, ?_, ?_⟩
      · rw [he]
        simp [hmem, hget]
      · intro task' hget' _
        injection hget' with htask
        subst htask
        exact he
      · intro hfalse
        rw [he] at hfalse
        simp at hfalse
      · intro fs
        rfl

/-- Witness for C2 at concrete inputs: a successful start and the failure
characterization, via `start_task_spec`. -/
theorem start_task_spec_witness :
    start_task exStT 0 7 = (true,
      { exStT with
        tasks_map := mapInsert exStT.tasks_map 0
          { (⟨0, "a", 1, 1⟩ : Task) with start_time := 7 }
        running_tasks := exStT.running_tasks ++ [0] })
    ∧ ((start_task exStT 0 7).1 = false ↔
        (0 ∈ exStT.running_tasks ∨ mapGet exStT.tasks_map 0 = none)) :=
  ⟨(start_task_spec exStT 0 7).2.1 ⟨0, "a", 1, 1⟩ rfl (by decide),
    (start_task_spec exStT 0 7).1⟩

/-- A digit string is rejected by the sign test Rust's `u32` parser applies. -/
theorem head_ne_plus_of_digitsVal (s : String) (n : Nat)
    (hdig : digitsVal s.data = some n) : s.data.head? ≠ some '+' := by
  intro hp
  cases hd : s.data with
  | nil =>
    rw [hd] at hp
    cases hp
  | cons c cs =>
    rw [hd] at hp
    injection hp with hc
    subst hc
    rw [hd] at hdig
    have hall : ('+' :: cs).all (fun c => c.isDigit) = false := by
      have : ('+' : Char).isDigit = false := by decide
      simp [List.all_cons, this]
    simp [digitsVal, hall] at hdig

/-- A successfully parsed digit string below the `u32` bound parses. -/
theorem parse_u32_of_digitsVal (s : String) (n : Nat)
    (hdig : digitsVal s.data = some n) (hlt : n < 2 ^ 32) :
    parse_u32 s = some n := by
  simp only [parse_u32]
  rw [if_neg (head_ne_plus_of_digitsVal s n hdig), hdig]
  exact if_pos hlt

/-- C7: at construction the cache file is read once: absent means the counter
starts at 0; present means the trimmed contents are parsed as a decimal
integer that becomes the starting counter; a parse failure is fatal. -/
theorem new_with_file_path_spec :
    (∀ sp cp : String,
      new_with_file_path sp cp none = some ⟨0, [], [], sp, cp⟩)
    ∧ (∀ (sp cp s : String) (n : Nat),
        digitsVal (trim_chars s).data = some n → n < 2 ^ 32 →
        new_with_file_path sp cp (some s) = some ⟨n, [], [], sp, cp⟩)
    ∧ (∀ sp cp s : String, parse_u32 (trim_chars s) = none →
        new_with_file_path sp cp (some s) = none) := by
  refine ⟨fun sp cp => rfl, ?_, ?_⟩
  · intro sp cp s n hdig hlt
    simp only [new_with_file_path]
    rw [parse_u32_of_digitsVal (trim_chars s) n hdig hlt]
  · intro sp cp s hp
    simp only [new_with_file_path]
    rw [hp]

/-- Witness for C7 at concrete inputs, via `new_with_file_path_spec`: a
cache file holding `" 42\n"` starts the counter at 42, and an unparseable
cache file is fatal. -/
theorem new_with_file_path_spec_witness :
    new_with_file_path "save" "cache" (some " 42\n")
        = some ⟨42, [], [], "save", "cache"⟩
    ∧ new_with_file_path "save" "cache" (some "zzz") = none :=
  ⟨new_with_file_path_spec.2.1 "save" "cache" " 42\n" 42 (by decide) (by decide),
    new_with_file_path_spec.2.2 "save" "cache" "zzz" (by decide)⟩

/-- C3 as amended: for every sequence of `new_task` calls on a freshly
constructed tracker whose starting counter plus the number of calls stays
within the `u32` range (the checked `current_id += 1` aborts at `u32::MAX`,
and a release build would wrap, so the frozen claim fails at that boundary),
the calls all succeed, `get_task_number()` equals the number of calls made,
and the returned ids are the consecutive integers from the starting counter
— strictly increasing, never repeated — where the starting counter is 0
without a cache file and the cached value with one. -/
theorem new_task_ids_spec (sp cp : String) (cc : Option String) (fs0 : FileSys)
    (t0 : TimeTracer) (h0 : new_with_file_path sp cp cc = some t0)
    (inputs : List (String × Nat))
    (hbound : t0.current_id + inputs.length < 2 ^ 32) :
    ∃ t' fs',
      newTasks t0 fs0 inputs
          = some (List.range' t0.current_id inputs.length, t', fs')
        ∧ get_task_number t' = inputs.length
        ∧ (List.range' t0.current_id inputs.length).Pairwise (· < ·)
        ∧ (List.range' t0.current_id inputs.length).Nodup
        ∧ (cc = none → t0.current_id = 0)
        ∧ (∀ s, cc = some s → parse_u32 (trim_chars s) = some t0.current_id) := by
  obtain ⟨hmap, _, _, _, hcc⟩ := new_with_file_path_shape sp cp cc t0 h0
  have hkeys : ∀ k, (mapGet t0.tasks_map k).isSome = true → k < t0.current_id := by
    rw [hmap]
    intro k hk
    simp [mapGet] at hk
  obtain ⟨t', fs', h1, _, h3⟩ := newTasks_spec inputs t0 fs0 hkeys hbound
  refine ⟨t', fs', h1, ?_, ?_, ?_, ?_, ?_⟩
  · unfold get_task_number
    rw [h3, hmap]
    simp
  · exact List.pairwise_lt_range' _ _
  · exact List.nodup_range' _ _
  · intro h
    rcases hcc with ⟨_, h0'⟩ | ⟨s, hs, _⟩
    · exact h0'
    · rw [h] at hs
      cases hs
  · intro s hs
    rcases hcc with ⟨hnone, _⟩ | ⟨s', hs', hp⟩
    · rw [hnone] at hs
      cases hs
    · rw [hs'] at hs
      injection hs with hss
      subst hss
      exact hp

/-- Witness for C3 at a concrete two-call sequence, via `new_task_ids_spec`. -/
theorem new_task_ids_spec_witness :
    ∃ t' fs',
      newTasks exT0 exFs0 [("task1", 5), ("task2", 9)]
          = some (List.range' exT0.current_id 2, t', fs')
        ∧ get_task_number t' = 2
        ∧ (List.range' exT0.current_id 2).Pairwise (· < ·)
        ∧ (List.range' exT0.current_id 2).Nodup
        ∧ ((none : Option String) = none → exT0.current_id = 0)
        ∧ (∀ s, (none : Option String) = some s →
            parse_u32 (trim_chars s) = some exT0.current_id) :=
  new_task_ids_spec "save" "cache" none exFs0 exT0 rfl [("task1", 5), ("task2", 9)]
    (by decide)

/-- C3 as frozen fails at the `u32` boundary: a tracker restored from a
cache file holding `u32::MAX` (4294967295, which `parse::<u32>` accepts)
constructs successfully, but its first `new_task` hits the checked-increment
abort, so the one-call sequence returns no ids at all instead of the claimed
`List.range'` — and a release build would instead wrap the counter to 0,
repeating ids within the process lifetime. -/
theorem new_task_ids_overflow_counterexample :
    new_with_file_path "save" "cache" (some "4294967295")
        = some ⟨4294967295, [], [], "save", "cache"⟩
    ∧ newTasks ⟨4294967295, [], [], "save", "cache"⟩ exFs0 [("task1", 5)] = none
    ∧ ¬ ∃ t' fs',
        newTasks ⟨4294967295, [], [], "save", "cache"⟩ exFs0 [("task1", 5)]
          = some (List.range' 4294967295 1, t', fs') := by
  have hnone : newTasks ⟨4294967295, [], [], "save", "cache"⟩ exFs0
      [("task1", 5)] = none := rfl
  refine ⟨by decide, hnone, ?_⟩
  rintro ⟨t', fs', h⟩
  rw [hnone] at h
  cases h

/-- C8: `delete_save_files()` succeeds and changes nothing when the save file
is absent; when it exists it removes it and resets the in-memory counter to
0; it never touches the cache file, the task registry, or the running set. -/
theorem delete_save_files_spec :
    (∀ (t : TimeTracer) (fs : FileSys) (removeOk : Bool), fs.saveFile = none →
        delete_save_files t fs removeOk = (true, t, fs))
    ∧ (∀ (t : TimeTracer) (fs : FileSys) (s : String), fs.saveFile = some s →
        delete_save_files t fs true
          = (true, { t with current_id := 0 }, { fs with saveFile := none }))
    ∧ (∀ (t : TimeTracer) (fs : FileSys) (removeOk : Bool),
        ((delete_save_files t fs removeOk).2.2).cacheFile = fs.cacheFile
          ∧ (delete_save_files t fs removeOk).2.1.tasks_map = t.tasks_map
          ∧ (delete_save_files t fs removeOk).2.1.running_tasks
              = t.running_tasks) := by
  refine ⟨?_, ?_, ?_⟩
  · intro t fs removeOk hs
    simp [delete_save_files, hs]
  · intro t fs s hs
    simp [delete_save_files, hs]
  · intro t fs removeOk
    cases hs : fs.saveFile with
    | none => simp [delete_save_files, hs]
    | some s =>
      cases removeOk with
      | false => simp [delete_save_files, hs]
      | true => simp [delete_save_files, hs]

/-- Witness for C8 at concrete inputs, via `delete_save_files_spec`. -/
theorem delete_save_files_spec_witness :
    delete_save_files exT1 exFs1 true = (true, exT1, exFs1)
    ∧ delete_save_files exT1 ⟨some "x", some "9\n"⟩ true
        = (true, { exT1 with current_id := 0 },
            { (⟨some "x", some "9\n"⟩ : FileSys) with saveFile := none }) :=
  ⟨delete_save_files_spec.1 exT1 exFs1 true rfl,
    delete_save_files_spec.2.1 exT1 ⟨some "x", some "9\n"⟩ "x" rfl⟩

/-- C9: for a running, registered task, the duration computation in
`end_task` cannot panic when the clock is monotonic (`start_time ≤ now`) and
returns exactly `now - start_time`; when the clock moved backward, the
`duration_since` error is surfaced by the explicit
`expect "Time went backwards"` abort (outer `none`) instead of silently
underflowing into a wrapped duration. -/
theorem end_task_duration_spec (t : TimeTracer) (id now : Nat) (fs : FileSys)
    (wOk : Bool) (task : Task) (hmem : id ∈ t.running_tasks)
    (hget : mapGet t.tasks_map id = some task) :
    (task.start_time ≤ now →
      ∃ t' fs', end_task t id now fs wOk
          = some (some (now - task.start_time), t', fs'))
    ∧ (now < task.start_time → end_task t id now fs wOk = none) := by
  constructor
  · intro hmono
    exact ⟨_, _, end_task_of_running t id now fs wOk task hmem hget hmono⟩
  · intro hlt
    exact end_task_clock_backward t id now fs wOk task hmem hget hlt

/-- Witness for C9 at concrete inputs, via `end_task_duration_spec`: with the
clock at 5 past a start time of 2 the duration is 3; with the clock rolled
back to 1 the computation aborts. -/
theorem end_task_duration_spec_witness :
    (∃ t' fs', end_task exT1 0 5 exFs1 true = some (some 3, t', fs'))
    ∧ end_task exT1 0 1 exFs1 true = none :=
  ⟨(end_task_duration_spec exT1 0 5 exFs1 true ⟨0, "a", 2, 1⟩ (by decide) rfl).1
      (by decide),
    (end_task_duration_spec exT1 0 1 exFs1 true ⟨0, "a", 2, 1⟩ (by decide) rfl).2
      (by decide)⟩

/-- C6: I/O failures split asymmetrically by target.  A save-file append
failure during `end_task` leaves the returned duration and all in-memory
state exactly as on success and leaves the file system untouched (the task is
still removed from the running set); a cache-file write failure during
`new_task` and a cache-file parse failure at construction abort. -/
theorem io_failure_asymmetry_spec :
    (∀ (t : TimeTracer) (fs : FileSys) (id now : Nat),
        (end_task t id now fs false).map (fun r => (r.1, r.2.1))
          = (end_task t id now fs true).map (fun r => (r.1, r.2.1)))
    ∧ (∀ (t : TimeTracer) (fs : FileSys) (id now : Nat) r,
        end_task t id now fs false = some r → r.2.2 = fs)
    ∧ (∀ (t : TimeTracer) (fs : FileSys) (id now d : Nat) t' fs',
        end_task t id now fs false = some (some d, t', fs') →
        id ∉ t'.running_tasks)
    ∧ (∀ (t : TimeTracer) (name : String) (now : Nat) (fs : FileSys),
        new_task t name now fs false = none)
    ∧ (∀ sp cp s : String, parse_u32 (trim_chars s) = none →
        new_with_file_path sp cp (some s) = none) := by
  refine ⟨?_, ?_, ?_, ?_, ?_⟩
  · intro t fs id now
    by_cases hmem : id ∈ t.running_tasks
    · cases hget : mapGet t.tasks_map id with
      | none =>
        rw [end_task_of_missing t id now fs false hmem hget,
          end_task_of_missing t id now fs true hmem hget]
      | some task =>
        by_cases hlt : now < task.start_time
        · rw [end_task_clock_backward t id now fs false task hmem hget hlt,
            end_task_clock_backward t id now fs true task hmem hget hlt]
        · rw [end_task_of_running t id now fs false task hmem hget
              (Nat.not_lt.mp hlt),
            end_task_of_running t id now fs true task hmem hget
              (Nat.not_lt.mp hlt)]
          simp
    · rw [end_task_of_not_running t id now fs false hmem,
        end_task_of_not_running t id now fs true hmem]
  · intro t fs id now r hr
    by_cases hmem : id ∈ t.running_tasks
    · cases hget : mapGet t.tasks_map id with
      | none =>
        rw [end_task_of_missing t id now fs false hmem hget] at hr
        injection hr with h
        subst h
        rfl
      | some task =>
        by_cases hlt : now < task.start_time
        · rw [end_task_clock_backward t id now fs false task hmem hget hlt] at hr
          cases hr
        · rw [end_task_of_running t id now fs false task hmem hget
            (Nat.not_lt.mp hlt)] at hr
          injection hr with h
          subst h
          rfl
    · rw [end_task_of_not_running t id now fs false hmem] at hr
      injection hr with h
      subst h
      rfl
  · intro t fs id now d t' fs' hr
    by_cases hmem : id ∈ t.running_tasks
    · cases hget : mapGet t.tasks_map id with
      | none =>
        rw [end_task_of_missing t id now fs false hmem hget] at hr
        simp at hr
      | some task =>
        by_cases hlt : now < task.start_time
        · rw [end_task_clock_backward t id now fs false task hmem hget hlt] at hr
          cases hr
        · rw [end_task_of_running t id now fs false task hmem hget
            (Nat.not_lt.mp hlt)] at hr
          simp only [Option.some.injEq, Prod.mk.injEq] at hr
          obtain ⟨-, ht', -⟩ := hr
          subst ht'
          exact not_mem_filter_bne t.running_tasks id
    · rw [end_task_of_not_running t id now fs false hmem] at hr
      simp at hr
  · intro t name now fs
    simp [new_task]
  · intro sp cp s hp
    simp only [new_with_file_path]
    rw [hp]

/-- Tracker state after ending the example running task at time 5. -/
def exT2f : TimeTracer := ⟨1, [(0, ⟨0, "a", 2, 5⟩)], [], "save", "cache"⟩

/-- Witness for C6 at concrete inputs, via `io_failure_asymmetry_spec`: a
failed save-file append still returns the duration, still removes the ended
task, and leaves the file system untouched; a failed cache write aborts
`new_task`; a bad cache file aborts construction. -/
theorem io_failure_asymmetry_spec_witness :
    (end_task exT1 0 5 exFs1 false).map (fun r => (r.1, r.2.1))
        = (end_task exT1 0 5 exFs1 true).map (fun r => (r.1, r.2.1))
    ∧ ((some 3, exT2f, exFs1) : Option Nat × TimeTracer × FileSys).2.2 = exFs1
    ∧ (0 : Nat) ∉ exT2f.running_tasks
    ∧ new_task exT1 "b" 9 exFs1 false = none
    ∧ new_with_file_path "save" "cache" (some "zzz") = none :=
  ⟨io_failure_asymmetry_spec.1 exT1 exFs1 0 5,
    io_failure_asymmetry_spec.2.1 exT1 exFs1 0 5 (some 3, exT2f, exFs1) rfl,
    io_failure_asymmetry_spec.2.2.1 exT1 exFs1 0 5 3 exT2f exFs1 rfl,
    io_failure_asymmetry_spec.2.2.2.1 exT1 "b" 9 exFs1,
    io_failure_asymmetry_spec.2.2.2.2 "save" "cache" "zzz" (by decide)⟩

/-- C1: on every reachable tracker state, `end_task(id)` returns `None`
exactly when `id` is not currently in the running set (covering both a task
never started and one already ended); on success it sets the task's
`end_time` to `now`, removes `id` from the running set, and returns
`end_time - start_time` as the duration, so a second `end_task` after a
first successful one returns `None`. -/
theorem end_task_none_iff_not_running (sp cp : String) (cc : Option String)
    (fs0 : FileSys) (t0 : TimeTracer) (ops : List Op) (t : TimeTracer)
    (fs : FileSys) (h0 : new_with_file_path sp cp cc = some t0)
    (hrun : run (t0, fs0) ops = some (t, fs)) (id now : Nat) (wOk : Bool) :
    (∀ r, end_task t id now fs wOk = some r → (r.1 = none ↔ id ∉ t.running_tasks))
    ∧ (id ∉ t.running_tasks → end_task t id now fs wOk = some (none, t, fs))
    ∧ (∀ d t' fs', end_task t id now fs wOk = some (some d, t', fs') →
        ∃ task, mapGet t.tasks_map id = some task ∧ task.start_time ≤ now ∧
          d = now - task.start_time ∧
          mapGet t'.tasks_map id = some { task with end_time := now } ∧
          id ∉ t'.running_tasks ∧
          (∀ (now2 : Nat) (wOk2 : Bool) (fs2 : FileSys),
            end_task t' id now2 fs2 wOk2 = some (none, t', fs2))) := by
  have hInv : Inv t :=
    inv_run ops (t0, fs0) (t, fs) (inv_new_with_file_path sp cp cc t0 h0) hrun
  refine ⟨?_, fun h => end_task_of_not_running t id now fs wOk h, ?_⟩
  · intro r hr
    constructor
    · intro hnone hmem
      obtain ⟨task, hget⟩ :=
        Option.isSome_iff_exists.mp (hInv.2 id hmem)
      by_cases hlt : now < task.start_time
      · rw [end_task_clock_backward t id now fs wOk task hmem hget hlt] at hr
        cases hr
      · rw [end_task_of_running t id now fs wOk task hmem hget
          (Nat.not_lt.mp hlt)] at hr
        injection hr with h
        subst h
        simp at hnone
    · intro hnmem
      rw [end_task_of_not_running t id now fs wOk hnmem] at hr
      injection hr with h
      subst h
      rfl
  · intro d t' fs' hr
    by_cases hmem : id ∈ t.running_tasks
    · obtain ⟨task, hget⟩ :=
        Option.isSome_iff_exists.mp (hInv.2 id hmem)
      by_cases hlt : now < task.start_time
      · rw [end_task_clock_backward t id now fs wOk task hmem hget hlt] at hr
        cases hr
      · rw [end_task_of_running t id now fs wOk task hmem hget
          (Nat.not_lt.mp hlt)] at hr
        simp only [Option.some.injEq, Prod.mk.injEq] at hr
        obtain ⟨hd, ht', -⟩ := hr
        subst ht'
        refine ⟨task, hget, Nat.not_lt.mp hlt, hd.symm, ?_, ?_, ?_⟩
        · simp [mapGet_mapInsert]
        · exact not_mem_filter_bne t.running_tasks id
        · intro now2 wOk2 fs2
          exact end_task_of_not_running _ id now2 fs2 wOk2
            (not_mem_filter_bne t.running_tasks id)
    · rw [end_task_of_not_running t id now fs wOk hmem] at hr
      simp at hr

/-- Witness for C1 at a concrete reachable state, via
`end_task_none_iff_not_running`: the successful end of the running example
task does not return `None`, and an id never started returns `None`. -/
theorem end_task_none_iff_not_running_witness :
    (((some 3 : Option Nat), exT2f,
        (⟨some "0,a,2,5\n", some "1\n"⟩ : FileSys)).1 = none
      ↔ (0 : Nat) ∉ exT1.running_tasks)
    ∧ end_task exT1 7 5 exFs1 true = some (none, exT1, exFs1) :=
  ⟨(end_task_none_iff_not_running "save" "cache" none exFs0 exT0 exOpsRun exT1
      exFs1 rfl exRun_eq 0 5 true).1
      (some 3, exT2f, ⟨some "0,a,2,5\n", some "1\n"⟩) rfl,
    (end_task_none_iff_not_running "save" "cache" none exFs0 exT0 exOpsRun exT1
      exFs1 rfl exRun_eq 7 5 true).2.1 (by decide)⟩

/-- C10: in every state reachable from a freshly constructed tracker by any
sequence of operations, each id in the running list occurs at most once and
is a key of the registry, so the lookup `end_task` performs after its
membership check cannot fail and the `None` branch for a missing task is
unreachable. -/
theorem running_invariant_reachable (sp cp : String) (cc : Option String)
    (fs0 : FileSys) (t0 : TimeTracer) (ops : List Op) (t : TimeTracer)
    (fs : FileSys) (h0 : new_with_file_path sp cp cc = some t0)
    (hrun : run (t0, fs0) ops = some (t, fs)) :
    t.running_tasks.Nodup
    ∧ (∀ id ∈ t.running_tasks, ∃ task, mapGet t.tasks_map id = some task)
    ∧ (∀ id ∈ t.running_tasks, mapGet t.tasks_map id ≠ none) := by
  have hInv : Inv t :=
    inv_run ops (t0, fs0) (t, fs) (inv_new_with_file_path sp cp cc t0 h0) hrun
  refine ⟨hInv.1, ?_, ?_⟩
  · intro id hmem
    exact Option.isSome_iff_exists.mp (hInv.2 id hmem)
  · intro id hmem
    exact Option.isSome_iff_ne_none.mp (hInv.2 id hmem)

/-- Witness for C10 at a concrete reachable state, via
`running_invariant_reachable`. -/
theorem running_invariant_reachable_witness :
    exT1.running_tasks.Nodup
    ∧ (∀ id ∈ exT1.running_tasks, ∃ task, mapGet exT1.tasks_map id = some task)
    ∧ (∀ id ∈ exT1.running_tasks, mapGet exT1.tasks_map id ≠ none) :=
  running_invariant_reachable "save" "cache" none exFs0 exT0 exOpsRun exT1 exFs1
    rfl exRun_eq

/-- C4 fails on the code: `save_cache_to_file` opens the cache file without
truncation, so writing counter 1 over the prior content `"10\n"` leaves
`"1\n\n"`, not `"1\n"`.  End to end: a tracker restored at counter 10 whose
counter is reset by `delete_save_files` writes a cache file with a stale
tail on the next `new_task`; over a prior `"123\n"` the stale tail even
makes the cache unparseable, so the next construction aborts. -/
theorem save_cache_stale_tail :
    save_cache_to_file 1 (some "10\n") = "1\n\n"
    ∧ "1\n\n" ≠ "1\n"
    ∧ run (⟨10, [], [], "save", "cache"⟩, ⟨some "x", some "10\n"⟩)
        [Op.deleteSaveFiles true, Op.newTask "task1" 5 true]
        = some (⟨1, [(0, ⟨0, "task1", 5, 5⟩)], [], "save", "cache"⟩,
            ⟨none, some "1\n\n"⟩)
    ∧ save_cache_to_file 1 (some "123\n") = "1\n3\n"
    ∧ parse_u32 (trim_chars "1\n3\n") = none
    ∧ new_with_file_path "save" "cache" (some "1\n3\n") = none :=
  ⟨rfl, by decide, rfl, rfl, by decide, by decide⟩

/-- Characters of a save-file line built from a control-free prefix and two
printed numerals are free of newlines and carriage returns. -/
theorem line_no_ctrl (pre : String) (x y : Nat)
    (hpre : ∀ c ∈ pre.data, c ≠ '\n' ∧ c ≠ '\x0d') :
    ∀ c ∈ (pre ++ Nat.repr x ++ "," ++ Nat.repr y).data,
      c ≠ '\n' ∧ c ≠ '\x0d' := by
  intro c hc
  simp only [String.data_append] at hc
  rcases List.mem_append.mp hc with hc | hc
  · rcases List.mem_append.mp hc with hc | hc
    · rcases List.mem_append.mp hc with hc | hc
      · exact hpre c hc
      · exact repr_ne_ctrl x c hc
    · simp only [List.mem_singleton] at hc
      subst hc
      exact ⟨by decide, by decide⟩
  · exact repr_ne_ctrl y c hc

/-- Unfolds one operation of a run whose step result is known. -/
theorem run_cons_some (s s' : TimeTracer × FileSys) (op : Op) (ops : List Op)
    (h : step s op = some s') : run s (op :: ops) = run s' ops := by
  simp only [run]
  rw [h]

/-- Unfolding of the save-file line on an explicit task literal: the fixed
comma-separated field order `id,name,start,end` plus the newline. -/
theorem task_line_explicit (idn st et : Nat) (nm : String) :
    task_line ⟨idn, nm, st, et⟩
      = Nat.repr idn ++ "," ++ nm ++ "," ++ Nat.repr st ++ ","
        ++ Nat.repr et ++ "\n" := rfl

/-- C5: each successful `end_task` appends exactly one line to the save
file, comma-separated in the fixed order `id,name,start,end`; after the
two-task scenario (create/start/end `"task1"` then `"task2"`) the save file
holds exactly the two lines in end order and the last line is
`1,task2,<int>,<int>`. -/
theorem save_file_two_lines (a1 s1 e1 a2 s2 e2 : Nat)
    (h1 : s1 ≤ e1) (h2 : s2 ≤ e2) :
    (∀ (t : TimeTracer) (fs : FileSys) (id now d : Nat) (t' : TimeTracer)
        (fs' : FileSys),
      end_task t id now fs true = some (some d, t', fs') →
      ∃ task, mapGet t.tasks_map id = some task ∧
        fs'.saveFile = some ((fs.saveFile.getD "")
          ++ (Nat.repr task.id ++ "," ++ task.name ++ ","
            ++ Nat.repr task.start_time ++ "," ++ Nat.repr now ++ "\n")))
    ∧ (∃ tF : TimeTracer,
        run (exT0, exFs0)
          [Op.newTask "task1" a1 true, Op.startTask 0 s1, Op.endTask 0 e1 true,
            Op.newTask "task2" a2 true, Op.startTask 1 s2, Op.endTask 1 e2 true]
          = some (tF,
              ⟨some (task_line ⟨0, "task1", s1, e1⟩
                ++ task_line ⟨1, "task2", s2, e2⟩), some "2\n"⟩))
    ∧ task_line ⟨0, "task1", s1, e1⟩
        = ("0,task1," ++ Nat.repr s1 ++ "," ++ Nat.repr e1) ++ "\n"
    ∧ task_line ⟨1, "task2", s2, e2⟩
        = ("1,task2," ++ Nat.repr s2 ++ "," ++ Nat.repr e2) ++ "\n"
    ∧ fileLines (task_line ⟨0, "task1", s1, e1⟩ ++ task_line ⟨1, "task2", s2, e2⟩)
        = ["0,task1," ++ Nat.repr s1 ++ "," ++ Nat.repr e1,
          "1,task2," ++ Nat.repr s2 ++ "," ++ Nat.repr e2] := by
  have hl1 : task_line ⟨0, "task1", s1, e1⟩
      = ("0,task1," ++ Nat.repr s1 ++ "," ++ Nat.repr e1) ++ "\n" := by
    rw [task_line_explicit]
    exact rfl
  have hl2 : task_line ⟨1, "task2", s2, e2⟩
      = ("1,task2," ++ Nat.repr s2 ++ "," ++ Nat.repr e2) ++ "\n" := by
    rw [task_line_explicit]
    exact rfl
  refine ⟨?_, ?_, hl1, hl2, ?_⟩
  · intro t fs id now d t' fs' hr
    by_cases hmem : id ∈ t.running_tasks
    · cases hget : mapGet t.tasks_map id with
      | none =>
        rw [end_task_of_missing t id now fs true hmem hget] at hr
        simp at hr
      | some task =>
        by_cases hlt : now < task.start_time
        · rw [end_task_clock_backward t id now fs true task hmem hget hlt] at hr
          cases hr
        · rw [end_task_of_running t id now fs true task hmem hget
            (Nat.not_lt.mp hlt)] at hr
          simp only [Option.some.injEq, Prod.mk.injEq] at hr
          obtain ⟨-, -, hfs'⟩ := hr
          subst hfs'
          exact ⟨task, rfl, rfl⟩
    · rw [end_task_of_not_running t id now fs true hmem] at hr
      simp at hr
  · -- the six scenario steps; the two `end_task` steps need the clock bounds
    have e3 : end_task ⟨1, [(0, ⟨0, "task1", s1, a1⟩)], [0], "save", "cache"⟩
        0 e1 ⟨none, some (save_cache_to_file 1 none)⟩ true
        = some (some (e1 - s1),
            ⟨1, [(0, ⟨0, "task1", s1, e1⟩)], [], "save", "cache"⟩,
            ⟨some (task_line ⟨0, "task1", s1, e1⟩),
              some (save_cache_to_file 1 none)⟩) := by
      rw [end_task_of_running
        ⟨1, [(0, ⟨0, "task1", s1, a1⟩)], [0], "save", "cache"⟩ 0 e1
        ⟨none, some (save_cache_to_file 1 none)⟩ true ⟨0, "task1", s1, a1⟩
        (List.mem_cons_self 0 []) rfl h1]
      exact rfl
    have e6 : end_task
        ⟨2, [(0, ⟨0, "task1", s1, e1⟩), (1, ⟨1, "task2", s2, a2⟩)], [1],
          "save", "cache"⟩
        1 e2 ⟨some (task_line ⟨0, "task1", s1, e1⟩),
          some (save_cache_to_file 2 (some (save_cache_to_file 1 none)))⟩ true
        = some (some (e2 - s2),
            ⟨2, [(0, ⟨0, "task1", s1, e1⟩), (1, ⟨1, "task2", s2, e2⟩)], [],
              "save", "cache"⟩,
            ⟨some (task_line ⟨0, "task1", s1, e1⟩
              ++ task_line ⟨1, "task2", s2, e2⟩),
              some (save_cache_to_file 2 (some (save_cache_to_file 1 none)))⟩) := by
      rw [end_task_of_running
        ⟨2, [(0, ⟨0, "task1", s1, e1⟩), (1, ⟨1, "task2", s2, a2⟩)], [1],
          "save", "cache"⟩
        1 e2 ⟨some (task_line ⟨0, "task1", s1, e1⟩),
          some (save_cache_to_file 2 (some (save_cache_to_file 1 none)))⟩ true
        ⟨1, "task2", s2, a2⟩ (List.mem_cons_self 1 []) rfl h2]
      exact rfl
    refine ⟨⟨2, [(0, ⟨0, "task1", s1, e1⟩), (1, ⟨1, "task2", s2, e2⟩)], [],
      "save", "cache"⟩, ?_⟩
    have st1 : step (exT0, exFs0) (Op.newTask "task1" a1 true)
        = some (⟨1, [(0, ⟨0, "task1", a1, a1⟩)], [], "save", "cache"⟩,
            ⟨none, some (save_cache_to_file 1 none)⟩) := rfl
    have st2 : step
        ((⟨1, [(0, ⟨0, "task1", a1, a1⟩)], [], "save", "cache"⟩ : TimeTracer),
          (⟨none, some (save_cache_to_file 1 none)⟩ : FileSys))
        (Op.startTask 0 s1)
        = some (⟨1, [(0, ⟨0, "task1", s1, a1⟩)], [0], "save", "cache"⟩,
            ⟨none, some (save_cache_to_file 1 none)⟩) := rfl
    have st3 : step
        ((⟨1, [(0, ⟨0, "task1", s1, a1⟩)], [0], "save", "cache"⟩ : TimeTracer),
          (⟨none, some (save_cache_to_file 1 none)⟩ : FileSys))
        (Op.endTask 0 e1 true)
        = some (⟨1, [(0, ⟨0, "task1", s1, e1⟩)], [], "save", "cache"⟩,
            ⟨some (task_line ⟨0, "task1", s1, e1⟩),
              some (save_cache_to_file 1 none)⟩) := by
      simp only [step]
      rw [e3]
      exact rfl
    have st4 : step
        ((⟨1, [(0, ⟨0, "task1", s1, e1⟩)], [], "save", "cache"⟩ : TimeTracer),
          (⟨some (task_line ⟨0, "task1", s1, e1⟩),
            some (save_cache_to_file 1 none)⟩ : FileSys))
        (Op.newTask "task2" a2 true)
        = some (⟨2, [(0, ⟨0, "task1", s1, e1⟩), (1, ⟨1, "task2", a2, a2⟩)], [],
            "save", "cache"⟩,
            ⟨some (task_line ⟨0, "task1", s1, e1⟩),
              some (save_cache_to_file 2 (some (save_cache_to_file 1 none)))⟩) := rfl
    have st5 : step
        ((⟨2, [(0, ⟨0, "task1", s1, e1⟩), (1, ⟨1, "task2", a2, a2⟩)], [],
            "save", "cache"⟩ : TimeTracer),
          (⟨some (task_line ⟨0, "task1", s1, e1⟩),
            some (save_cache_to_file 2 (some (save_cache_to_file 1 none)))⟩ : FileSys))
        (Op.startTask 1 s2)
        = some (⟨2, [(0, ⟨0, "task1", s1, e1⟩), (1, ⟨1, "task2", s2, a2⟩)], [1],
            "save", "cache"⟩,
            ⟨some (task_line ⟨0, "task1", s1, e1⟩),
              some (save_cache_to_file 2 (some (save_cache_to_file 1 none)))⟩) := rfl
    have st6 : step
        ((⟨2, [(0, ⟨0, "task1", s1, e1⟩), (1, ⟨1, "task2", s2, a2⟩)], [1],
            "save", "cache"⟩ : TimeTracer),
          (⟨some (task_line ⟨0, "task1", s1, e1⟩),
            some (save_cache_to_file 2 (some (save_cache_to_file 1 none)))⟩ : FileSys))
        (Op.endTask 1 e2 true)
        = some (⟨2, [(0, ⟨0, "task1", s1, e1⟩), (1, ⟨1, "task2", s2, e2⟩)], [],
            "save", "cache"⟩,
            ⟨some (task_line ⟨0, "task1", s1, e1⟩
              ++ task_line ⟨1, "task2", s2, e2⟩),
              some (save_cache_to_file 2 (some (save_cache_to_file 1 none)))⟩) := by
      simp only [step]
      rw [e6]
      exact rfl
    rw [run_cons_some _ _ _ _ st1, run_cons_some _ _ _ _ st2,
      run_cons_some _ _ _ _ st3, run_cons_some _ _ _ _ st4,
      run_cons_some _ _ _ _ st5, run_cons_some _ _ _ _ st6,
      show save_cache_to_file 2 (some (save_cache_to_file 1 none)) = "2\n"
        from rfl]
    exact rfl
  · rw [hl1, hl2,
      show ((("0,task1," ++ Nat.repr s1 ++ "," ++ Nat.repr e1) ++ "\n")
          ++ (("1,task2," ++ Nat.repr s2 ++ "," ++ Nat.repr e2) ++ "\n"))
        = ((("0,task1," ++ Nat.repr s1 ++ "," ++ Nat.repr e1) ++ "\n")
            ++ ("1,task2," ++ Nat.repr s2 ++ "," ++ Nat.repr e2)) ++ "\n"
      from (String.append_assoc _ _ _).symm]
    have hpre1 : ∀ c ∈ ("0,task1," : String).data, c ≠ '\n' ∧ c ≠ '\x0d' := by
      decide
    have hpre2 : ∀ c ∈ ("1,task2," : String).data, c ≠ '\n' ∧ c ≠ '\x0d' := by
      decide
    exact fileLines_two _ _ (line_no_ctrl "0,task1," s1 e1 hpre1)
      (line_no_ctrl "1,task2," s2 e2 hpre2)

/-- Witness for C5 at concrete clock readings, via `save_file_two_lines`. -/
theorem save_file_two_lines_witness :
    (∃ tF : TimeTracer,
      run (exT0, exFs0)
        [Op.newTask "task1" 10 true, Op.startTask 0 11, Op.endTask 0 15 true,
          Op.newTask "task2" 20 true, Op.startTask 1 21, Op.endTask 1 29 true]
        = some (tF,
            ⟨some (task_line ⟨0, "task1", 11, 15⟩
              ++ task_line ⟨1, "task2", 21, 29⟩), some "2\n"⟩))
    ∧ fileLines (task_line ⟨0, "task1", 11, 15⟩ ++ task_line ⟨1, "task2", 21, 29⟩)
        = ["0,task1," ++ Nat.repr 11 ++ "," ++ Nat.repr 15,
          "1,task2," ++ Nat.repr 21 ++ "," ++ Nat.repr 29] :=
  ⟨(save_file_two_lines 10 11 15 20 21 29 (by decide) (by decide)).2.1,
    (save_file_two_lines 10 11 15 20 21 29 (by decide) (by decide)).2.2.2.2⟩

end TimeTracerModel
